import Mathlib

/-!
Shallow embedding of the territory-control engine of the
foxhole-trmnl-dashboard repository: the war-API icon table, the
region-control classifier, the victory-town accountant, the capture-recency
alpha encoder, the town-control ledger, the town-id derivation, the
point-in-polygon test and the recent-captures view.  All definitions are
translated from the JavaScript source (generate-svg.js, logger.js,
warapi.js); JavaScript numbers are modelled as rationals, machine
timestamps as integers, nullable values as options.
-/

namespace Foxhole

/-! ## War API icon table (warapi.js) -/

/-- One entry of the `iconTypes` table of warapi.js.  Entries of the source
table that lack the `conquer` key are modelled with `conquer := false`,
matching JavaScript truthiness of the missing key. -/
structure IconInfo where
  type : String
  icon : String
  notes : String
  conquer : Bool
deriving Repr, DecidableEq

/-- The `iconTypes` mapping of warapi.js, as a partial map from icon code to
entry. -/
def iconTypes (code : ℕ) : Option IconInfo :=
  match code with
  | 27 => some ⟨"town", "Keep", "Keep", true⟩
  | 56 => some ⟨"town", "TownHall1", "Town Hall T1", true⟩
  | 57 => some ⟨"town", "TownHall2", "Town Hall T2", true⟩
  | 58 => some ⟨"town", "TownHall3", "Town Hall T3", true⟩
  | 45 => some ⟨"town", "RelicBase1", "Small Relic Base", true⟩
  | 46 => some ⟨"town", "RelicBase2", "Medium Relic Base", true⟩
  | 47 => some ⟨"town", "RelicBase3", "Large Relic Base", true⟩
  | 11 => some ⟨"industry", "Hospital", "Hospital", false⟩
  | 12 => some ⟨"industry", "VehicleFactory", "Vehicle Factory", false⟩
  | 15 => some ⟨"industry", "Workshop", "Workshop", false⟩
  | 16 => some ⟨"industry", "Manufacturing", "Manufacturing Plant", false⟩
  | 17 => some ⟨"industry", "Refinery", "Refinery", false⟩
  | 18 => some ⟨"industry", "Shipyard", "Shipyard", false⟩
  | 20 => some ⟨"field", "SalvageField", "Salvage Field", false⟩
  | 21 => some ⟨"field", "ComponentField", "Component Field", false⟩
  | 23 => some ⟨"field", "SulfurField", "Sulfur Field", false⟩
  | 61 => some ⟨"field", "CoalField", "Coal Field", false⟩
  | 62 => some ⟨"field", "OilField", "Oil Field", false⟩
  | _ => none

/-- `isIconType` of warapi.js: membership of a code in the `iconTypes`
table. -/
def isIconType (code : ℕ) : Bool :=
  (iconTypes code).isSome

/-! ## Dynamic map data -/

/-- One element of `dynamicData.mapItems` as consumed by the engine:
icon code, owning team, flag bits and the normalized position. -/
structure MapItem where
  iconType : ℕ
  teamId : String
  flags : ℕ
  x : ℚ
  y : ℚ
deriving Repr, DecidableEq

/-- Dynamic region data; `mapItems` is optional because the source guards
`dynamicData.mapItems` for truthiness (an absent key), while a present but
empty array is truthy in JavaScript and therefore modelled as `some []`. -/
structure DynamicData where
  mapItems : Option (List MapItem)
deriving Repr, DecidableEq

/-! ## Region control classifier (generate-svg.js `getRegionControl`) -/

/-- The counting loop of `getRegionControl`: one pass over the map items
accumulating `(colonialTowns, wardenTowns, totalTowns)`.  Every item whose
icon entry has `conquer` set increments `totalTowns`, regardless of which
team (if any) holds it, exactly as in the source. -/
def conquerStep (acc : ℕ × ℕ × ℕ) (item : MapItem) : ℕ × ℕ × ℕ :=
  match iconTypes item.iconType with
  | some iconInfo =>
      if iconInfo.conquer then
        if item.teamId = "COLONIALS" then (acc.1 + 1, acc.2.1, acc.2.2 + 1)
        else if item.teamId = "WARDENS" then (acc.1, acc.2.1 + 1, acc.2.2 + 1)
        else (acc.1, acc.2.1, acc.2.2 + 1)
      else acc
  | none => acc

def conquerCounts (items : List MapItem) : ℕ × ℕ × ℕ :=
  items.foldl conquerStep (0, 0, 0)

/-- `getRegionControl` of generate-svg.js: classify a region from its
dynamic data as neutral, colonial, warden or contested.  The 0.6 literal of
the source is the rational 6/10; percentages are rational divisions. -/
def getRegionControl (dynamicData : Option DynamicData) : String :=
  match dynamicData with
  | none => "neutral"
  | some d =>
      match d.mapItems with
      | none => "neutral"
      | some items =>
          let colonialTowns := (conquerCounts items).1
          let wardenTowns := (conquerCounts items).2.1
          let totalTowns := (conquerCounts items).2.2
          if totalTowns = 0 then "neutral"
          else
            let colonialPercent : ℚ := (colonialTowns : ℚ) / (totalTowns : ℚ)
            let wardenPercent : ℚ := (wardenTowns : ℚ) / (totalTowns : ℚ)
            if colonialPercent ≥ 6/10 then "colonial"
            else if wardenPercent ≥ 6/10 then "warden"
            else if 0 < colonialTowns ∧ 0 < wardenTowns then "contested"
            else if colonialTowns > wardenTowns then "colonial"
            else if wardenTowns > colonialTowns then "warden"
            else "neutral"

/-- Modelled from the claim wording (for comparison with the source): the
region label computed from counts `a`, `b` of settlements held by the two
factions with denominator `total = a + b`, i.e. excluding settlements held
by neither faction. -/
def claimRegionLabel (a b : ℕ) : String :=
  let total := a + b
  if total = 0 then "neutral"
  else if (a : ℚ) / (total : ℚ) ≥ 6/10 then "colonial"
  else if (b : ℚ) / (total : ℚ) ≥ 6/10 then "warden"
  else if 0 < a ∧ 0 < b then "contested"
  else if a > b then "colonial"
  else if b > a then "warden"
  else "neutral"

/-- The region label as a function of the three counters actually produced
by the counting loop of the source: `total` counts every conquer-eligible
settlement, including those held by neither faction. -/
def regionLabelOfCounts (a b total : ℕ) : String :=
  if total = 0 then "neutral"
  else if (a : ℚ) / (total : ℚ) ≥ 6/10 then "colonial"
  else if (b : ℚ) / (total : ℚ) ≥ 6/10 then "warden"
  else if 0 < a ∧ 0 < b then "contested"
  else if a > b then "colonial"
  else if b > a then "warden"
  else "neutral"

/-- Whether a map item counts into the region-control totals: its icon code
is in the table and the entry has `conquer` set. -/
def isConquerItem (item : MapItem) : Bool :=
  match iconTypes item.iconType with
  | some iconInfo => iconInfo.conquer
  | none => false

/-! ## Victory accountant (generate-svg.js) -/

/-- `isVictoryTown` of generate-svg.js: the icon code is one of 45, 56, 57,
58 and the flag bit of value 32 is set.  The JavaScript expression returns
the truthy number `flags & 32`; it is modelled as the boolean test that
this number is nonzero. -/
def isVictoryTown (iconType : ℕ) (flags : ℕ) : Bool :=
  let victoryBaseTypes : List ℕ := [45, 56, 57, 58]
  let victoryBaseFlag : ℕ := 32
  victoryBaseTypes.contains iconType && (flags &&& victoryBaseFlag != 0)

/-- `getScorchedVictoryTowns` of generate-svg.js: sum the per-region
`dynamic.scorchedVictoryTowns` counters over the map data, skipping regions
where the counter is absent or zero (JavaScript truthiness guard). -/
def getScorchedVictoryTowns (regionScorchedData : List (Option ℤ)) : ℤ :=
  regionScorchedData.foldl
    (fun scorchedCount regionScorched =>
      match regionScorched with
      | some n => if n ≠ 0 then scorchedCount + n else scorchedCount
      | none => scorchedCount)
    0

/-- The war metadata fields consumed by `getRequiredVictoryTowns`. -/
structure WarData where
  requiredVictoryTowns : Option ℤ
  resistanceStartTime : Option ℤ
deriving Repr, DecidableEq

/-- `getRequiredVictoryTowns` of generate-svg.js (success path, no fetch
failure): `baseRequired` is the fetched value with the JavaScript `|| 32`
falsy default; during an active resistance phase (`resistanceStartTime`
truthy and positive) the function returns the literal 32; otherwise it
returns `baseRequired` minus the scorched-victory-town count, with no lower
bound. -/
def getRequiredVictoryTowns (warData : WarData)
    (regionScorchedData : List (Option ℤ)) : ℤ :=
  let baseRequired : ℤ :=
    match warData.requiredVictoryTowns with
    | some r => if r ≠ 0 then r else 32
    | none => 32
  let resistanceActive : Bool :=
    match warData.resistanceStartTime with
    | some t => decide (t ≠ 0) && decide (0 < t)
    | none => false
  if resistanceActive then 32
  else
    let scorchedCount := getScorchedVictoryTowns regionScorchedData
    baseRequired - scorchedCount

/-! ## Recency encoder (generate-svg.js `getColorWithAlpha`) -/

/-- The numeric alpha value of the recent-capture branch of
`getColorWithAlpha`: `Math.floor(255 - (timeSinceCapture / 86400000) * 68)`
over rationals. -/
def alphaValueOf (timeSinceCapture : ℤ) : ℤ :=
  Int.floor ((255 : ℚ) - ((timeSinceCapture : ℚ) / 86400000) * 68)

/-- The alpha byte produced by `getColorWithAlpha` for a tracked capture at
a given elapsed time: the fixed baseline 187 (hex BB) at or beyond 24 hours,
the linear-decay floor value below 24 hours. -/
def encodeAlpha (timeSinceCapture : ℤ) : ℤ :=
  if timeSinceCapture ≥ 86400000 then 187
  else alphaValueOf timeSinceCapture

/-! ## JavaScript number-to-string rendering

The town id and the alpha hex byte are built with JavaScript string
interpolation and `Number.prototype.toString(16)`.  For the integers that
reach these call sites the rendering is plain positional notation with an
optional leading minus sign, modelled here directly. -/

/-- Decimal digit characters of a natural number, most significant first;
`0` renders as the single character 0, as in JavaScript. -/
def natDecChars (n : ℕ) : List Char :=
  if _h : n < 10 then [Nat.digitChar n]
  else natDecChars (n / 10) ++ [Nat.digitChar (n % 10)]
decreasing_by exact Nat.div_lt_self (by omega) (by omega)

/-- Base-16 digit characters of a natural number, most significant first,
lowercase, as produced by JavaScript `toString(16)` on a natural number. -/
def natHexChars (n : ℕ) : List Char :=
  if _h : n < 16 then [Nat.digitChar n]
  else natHexChars (n / 16) ++ [Nat.digitChar (n % 16)]
decreasing_by exact Nat.div_lt_self (by omega) (by omega)

/-- JavaScript decimal rendering of a natural number. -/
def natDecRepr (n : ℕ) : String :=
  (natDecChars n).asString

/-- JavaScript decimal rendering of an integer. -/
def intDecRepr (i : ℤ) : String :=
  if i < 0 then "-" ++ (natDecChars i.natAbs).asString
  else (natDecChars i.natAbs).asString

/-- JavaScript `toString(16)` rendering of an integer. -/
def intHexRepr (i : ℤ) : String :=
  if i < 0 then "-" ++ (natHexChars i.natAbs).asString
  else (natHexChars i.natAbs).asString

/-- JavaScript `String.prototype.padStart(len, c)`. -/
def padStart (s : String) (len : ℕ) (c : Char) : String :=
  (List.replicate (len - s.length) c).asString ++ s

/-- JavaScript `Math.round`: round half toward positive infinity. -/
def jsRound (q : ℚ) : ℤ :=
  Int.floor (q + 1/2)

/-! ## Town control ledger (logger.js `TownTracker`) -/

/-- `generateTownId` of logger.js: the template string
iconType, underscore, rounded scaled x, underscore, rounded scaled y. -/
def generateTownId (iconType : ℕ) (x y : ℚ) : String :=
  natDecRepr iconType ++ "_" ++ intDecRepr (jsRound (x * 1000)) ++ "_" ++
    intDecRepr (jsRound (y * 1000))

/-- One row of the `towns` table. -/
structure TownRow where
  id : String
  iconType : ℕ
  x : ℚ
  y : ℚ
  region : String
  currentTeam : String
  lastTeam : Option String
  lastChange : ℤ
  notes : Option String
  updatedAt : ℤ
deriving Repr, DecidableEq

/-- `getTownControl` of logger.js: primary-key lookup of the row whose id is
the derived town id. -/
def getTownControl (db : List TownRow) (iconType : ℕ) (x y : ℚ) :
    Option TownRow :=
  db.find? (fun r => r.id == generateTownId iconType x y)

/-- The if/else block of `updateTownControl` that prepares
`(lastTeam, lastChange, teamChanged)` from the looked-up row. -/
def transitionFields (currentTown : Option TownRow) (team : String)
    (now : ℤ) : Option String × ℤ × Bool :=
  match currentTown with
  | some row =>
      if row.currentTeam ≠ team then (some row.currentTeam, now, true)
      else (row.lastTeam, row.lastChange, false)
  | none => (none, now, false)

/-- `updateTownControl` of logger.js: read the existing row, keep or update
the transition fields depending on whether the observed team differs from
the stored one, then INSERT OR REPLACE the row keyed by the town id.  The
boolean component is the `teamChanged` flag that drives the captured-town
report. -/
def updateTownControl (db : List TownRow) (iconType : ℕ) (x y : ℚ)
    (region team : String) (notes : Option String) (now : ℤ) :
    List TownRow × Bool :=
  let townId := generateTownId iconType x y
  let currentTown := getTownControl db iconType x y
  let fields := transitionFields currentTown team now
  let newRow : TownRow :=
    ⟨townId, iconType, x, y, region, team, fields.1, fields.2.1, notes, now⟩
  (db.filter (fun r => !(r.id == townId)) ++ [newRow], fields.2.2)

/-! ## Point-in-polygon (generate-svg.js `inside`) -/

/-- `inside` of generate-svg.js: the ray-casting point-in-polygon test.
The loop pairs each vertex `v i` with its predecessor `v j` (the last
vertex for `i = 0`) and toggles the flag when the horizontal ray at the
point crosses the edge.  When the crossing guard holds the two endpoint
ordinates differ, so the rational division is by a nonzero denominator. -/
def inside (point : ℚ × ℚ) (vs : List (ℚ × ℚ)) : Bool :=
  let x := point.1
  let y := point.2
  let edges : List ((ℚ × ℚ) × (ℚ × ℚ)) :=
    match vs with
    | [] => []
    | v :: rest => (v :: rest).zip ((v :: rest).getLastD v :: v :: rest)
  edges.foldl
    (fun acc e =>
      let xi := e.1.1
      let yi := e.1.2
      let xj := e.2.1
      let yj := e.2.2
      let intersect :=
        (decide (yi > y) != decide (yj > y)) &&
          decide (x < (xj - xi) * (y - yi) / (yj - yi) + xi)
      if intersect then !acc else acc)
    false

/-! ## Color with alpha (generate-svg.js `getColorWithAlpha`) -/

/-- The projection of a `conquerStatus` feature used by the engine: owning
team and the last-transition timestamp (absent or zero is falsy in the
source guards). -/
structure ConquerFeature where
  team : String
  lastChange : Option ℤ
deriving Repr, DecidableEq

/-- The alpha hex pair computed by `getColorWithAlpha`: the default BB
when no tracked feature or no truthy `lastChange` is available, BB again
for captures 24 hours old or older, and the zero-padded lowercase hex of
the linear-decay value for fresher captures. -/
def alphaHexOf (conquerFeature : Option ConquerFeature) (now : ℤ) : String :=
  match conquerFeature with
  | some f =>
      match f.lastChange with
      | some lastChange =>
          if lastChange ≠ 0 then
            let timeSinceCapture := now - lastChange
            if timeSinceCapture ≥ 86400000 then "BB"
            else padStart (intHexRepr (alphaValueOf timeSinceCapture)) 2 '0'
          else "BB"
      | none => "BB"
  | none => "BB"

/-- `getColorWithAlpha` of generate-svg.js: grayscale team color with the
recency alpha pair appended. -/
def getColorWithAlpha (teamId : String) (conquerFeature : Option ConquerFeature)
    (now : ℤ) : String :=
  let alpha := alphaHexOf conquerFeature now
  if teamId = "WARDENS" then "#404040" ++ alpha
  else if teamId = "COLONIALS" then "#A0A0A0" ++ alpha
  else "#F0F0F0" ++ alpha

/-! ## Static geometry -/

/-- The `properties` object of a static-geometry feature; only `notes` is
consumed by the modelled code. -/
structure GeoProperties where
  notes : Option String
deriving Repr, DecidableEq

/-- A GeoJSON-style geometry: a list of rings of world-space points. -/
structure Geometry where
  coordinates : List (List (ℚ × ℚ))
deriving Repr, DecidableEq

/-- A region boundary feature from static.json. -/
structure RegionGeometry where
  properties : Option GeoProperties
  geometry : Geometry
deriving Repr, DecidableEq

/-- A Voronoi cell feature from static.json. -/
structure VoronoiRegion where
  properties : Option GeoProperties
  geometry : Geometry
deriving Repr, DecidableEq

/-- One value of the `mapData` map of generate-svg.js: dynamic feed data
(null for an inactive region), the optional region boundary feature and the
list of Voronoi cell features (always an array in the source, possibly
empty). -/
structure RegionData where
  dynamic : Option DynamicData
  regionGeometry : Option RegionGeometry
  voronoiRegions : List VoronoiRegion
deriving Repr, DecidableEq

/-- The camel-case fallback of `getHexName`: drop the first occurrence of
the substring Hex from the region key. -/
def removeFirstHex : List Char → List Char
  | [] => []
  | c :: cs =>
      if c = 'H' ∧ cs.take 2 = ['e', 'x'] then cs.drop 2
      else c :: removeFirstHex cs

/-- The camel-case fallback of `getHexName`: insert a space before each
ASCII uppercase letter, as the global regex replace does. -/
def spaceBeforeCaps (l : List Char) : List Char :=
  l.flatMap (fun c => if c.isUpper then [' ', c] else [c])

/-- JavaScript `String.prototype.trim` on the characters produced by the
fallback: strip whitespace from both ends. -/
def trimChars (l : List Char) : List Char :=
  ((l.dropWhile Char.isWhitespace).reverse.dropWhile Char.isWhitespace).reverse

/-- The fallback branch of `getHexName`: strip Hex, space the capitals,
trim. -/
def getHexNameFallback (regionName : String) : String :=
  (trimChars (spaceBeforeCaps (removeFirstHex regionName.data))).asString

/-- `getHexName` of generate-svg.js: the `notes` of the region geometry
when present and truthy, the camel-case fallback otherwise. -/
def getHexName (regionName : String) (regionGeometry : Option RegionGeometry) :
    String :=
  match regionGeometry with
  | some rg =>
      match rg.properties with
      | some props =>
          match props.notes with
          | some notes =>
              if notes ≠ "" then notes else getHexNameFallback regionName
          | none => getHexNameFallback regionName
      | none => getHexNameFallback regionName
  | none => getHexNameFallback regionName

/-- `convertTownToWorldCoordinates` of generate-svg.js.  The source also
computes the unused `maxX` and `minY` extrema; only `minX` and `maxY` feed
the result.  `Math.min`/`Math.max` over the first ring are modelled by a
fold seeded with the first element (the source never maps an empty ring
here; the fold returns 0 on one). -/
def convertTownToWorldCoordinates (town : MapItem)
    (regionGeometry : RegionGeometry) : ℚ × ℚ :=
  let coords := regionGeometry.geometry.coordinates.headD []
  let minX : ℚ :=
    match coords.map Prod.fst with
    | [] => 0
    | v :: rest => rest.foldl min v
  let maxY : ℚ :=
    match coords.map Prod.snd with
    | [] => 0
    | v :: rest => rest.foldl max v
  let worldX := minX - town.x * (-2046)
  let worldY := maxY - town.y * 1777
  (worldX, worldY)

/-! ## Recent captures view (generate-svg.js `getRecentCapturesData`) -/

/-- The `conquerStatus` snapshot consumed by the view: the tracked features
keyed by town id. -/
structure ConquerStatus where
  features : Option (List (String × ConquerFeature))
deriving Repr, DecidableEq

/-- The map-item search of the view loop: the first item of a region whose
icon code is tabulated, conquer-eligible and whose derived town id matches
the feature key. -/
def findTownById (items : List MapItem) (id : String) : Option MapItem :=
  items.find? (fun item =>
    isIconType item.iconType && isConquerItem item &&
      (generateTownId item.iconType item.x item.y == id))

/-- The notes of the icon-type entry of a found town (the found town always
has a tabulated icon code, so the default is unreachable). -/
def iconNotesOf (town : MapItem) : String :=
  match iconTypes town.iconType with
  | some info => info.notes
  | none => "Unknown"

/-- The name-resolution part of the view loop: scan the regions in order,
stop at the first region whose dynamic map items contain the town with the
given id, and return the pair (townName, hexName).  The town name is the
notes of the first Voronoi cell whose first ring contains the town in
world space, with the icon-type notes as fallback; when the region has no
boundary feature the source could only reach the Voronoi test by throwing,
so the model falls back to the icon notes there. -/
def resolveNames : List (String × RegionData) → String → String × String
  | [], _ => ("Unknown", "Unknown")
  | (regionName, data) :: rest, id =>
      match data.dynamic with
      | some dyn =>
          match dyn.mapItems with
          | some items =>
              match findTownById items id with
              | some town =>
                  let hexName := getHexName regionName data.regionGeometry
                  let townName :=
                    match data.regionGeometry with
                    | some rg =>
                        match data.voronoiRegions.find? (fun v =>
                          inside (convertTownToWorldCoordinates town rg)
                            (v.geometry.coordinates.headD [])) with
                        | some vRegion =>
                            match vRegion.properties with
                            | some props =>
                                match props.notes with
                                | some notes =>
                                    if notes ≠ "" then notes
                                    else iconNotesOf town
                                | none => iconNotesOf town
                            | none => iconNotesOf town
                        | none => iconNotesOf town
                    | none => iconNotesOf town
                  (townName, hexName)
              | none => resolveNames rest id
          | none => resolveNames rest id
      | none => resolveNames rest id

/-- One entry of the recent-captures list. -/
structure Capture where
  id : String
  team : String
  lastChange : ℤ
  townName : String
  hexName : String
  timeSinceCapture : ℤ
deriving Repr, DecidableEq

/-- The push of the view loop: build the capture entry for one tracked
feature. -/
def mkCapture (now : ℤ) (mapData : List (String × RegionData))
    (entry : String × ConquerFeature) : Capture :=
  let names := resolveNames mapData entry.1
  { id := entry.1
    team := entry.2.team
    lastChange := entry.2.lastChange.getD 0
    townName := names.1
    hexName := names.2
    timeSinceCapture := now - entry.2.lastChange.getD 0 }

/-- The window guard of the view loop: `lastChange` truthy and less than
48 hours before now (a negative elapsed time also passes, as in the
source). -/
def isRecentEntry (now : ℤ) (entry : String × ConquerFeature) : Bool :=
  match entry.2.lastChange with
  | some lastChange =>
      decide (lastChange ≠ 0) && decide (now - lastChange < 172800000)
  | none => false

/-- The ascending comparator of the view sort: smaller elapsed time first
(most recent first). -/
def captureLE (a b : Capture) : Prop :=
  a.timeSinceCapture ≤ b.timeSinceCapture

instance : DecidableRel captureLE :=
  fun a b => Int.decLe a.timeSinceCapture b.timeSinceCapture

instance : IsTotal Capture captureLE :=
  ⟨fun a b => le_total a.timeSinceCapture b.timeSinceCapture⟩

instance : IsTrans Capture captureLE :=
  ⟨fun _ _ _ hab hbc => le_trans hab hbc⟩

/-- `getRecentCapturesData` of generate-svg.js: collect the tracked
features inside the 48-hour window, build their entries, sort ascending by
elapsed time (the stable JavaScript sort is modelled by the stable
insertion sort), then keep the first 6 Warden entries and the first 6
Colonial entries.  The result is the pair
(wardenCaptures, colonialCaptures). -/
def getRecentCapturesData (conquerStatus : Option ConquerStatus)
    (mapData : List (String × RegionData)) (now : ℤ) :
    List Capture × List Capture :=
  match conquerStatus with
  | none => ([], [])
  | some cs =>
      match cs.features with
      | none => ([], [])
      | some features =>
          let recentCaptures :=
            (features.filter (isRecentEntry now)).map (mkCapture now mapData)
          let sortedCaptures := recentCaptures.insertionSort captureLE
          let wardenCaptures :=
            (sortedCaptures.filter
              (fun c => c.team == "WARDENS" || c.team == "Warden")).take 6
          let colonialCaptures :=
            (sortedCaptures.filter
              (fun c => c.team == "COLONIALS" || c.team == "Colonial")).take 6
          (wardenCaptures, colonialCaptures)

/-- Decimal parse of a digit string, inverse to `natDecChars` (used only to
prove the town-id rendering injective). -/
def charsToNat (l : List Char) : ℕ :=
  l.foldl (fun acc c => acc * 10 + (c.toNat - 48)) 0

/-- A concrete `conquerStatus` with seven Warden-held tracked settlements,
all well inside the 48-hour window relative to `now = 100`. -/
def sevenWardenStatus : ConquerStatus :=
  ⟨some [("t1", ⟨"WARDENS", some 1⟩), ("t2", ⟨"WARDENS", some 2⟩),
    ("t3", ⟨"WARDENS", some 3⟩), ("t4", ⟨"WARDENS", some 4⟩),
    ("t5", ⟨"WARDENS", some 5⟩), ("t6", ⟨"WARDENS", some 6⟩),
    ("t7", ⟨"WARDENS", some 7⟩)]⟩

/-! ## Sample map items for concrete evaluations -/

/-- A victory-eligible (and conquer-eligible) settlement held by the
Colonials. -/
def colonialTown : MapItem := ⟨56, "COLONIALS", 32, 0, 0⟩

/-- A victory-eligible (and conquer-eligible) settlement held by the
Wardens. -/
def wardenTown : MapItem := ⟨56, "WARDENS", 32, 0, 0⟩

/-- A conquer-eligible settlement held by neither faction. -/
def neutralTown : MapItem := ⟨56, "NONE", 0, 0, 0⟩

/-! ## Helper lemmas -/

/-- The counting loop of `getRegionControl` computes the three `countP`
counters, for any starting accumulator. -/
theorem foldl_conquerStep :
    ∀ (items : List MapItem) (acc : ℕ × ℕ × ℕ),
      items.foldl conquerStep acc =
        (acc.1 + items.countP (fun i => isConquerItem i && i.teamId == "COLONIALS"),
         acc.2.1 + items.countP (fun i => isConquerItem i && i.teamId == "WARDENS"),
         acc.2.2 + items.countP isConquerItem)
  | [], acc => by simp
  | item :: items, acc => by
      simp only [List.foldl_cons, List.countP_cons, foldl_conquerStep items]
      unfold conquerStep isConquerItem
      rcases hi : iconTypes item.iconType with _ | info
      · simp [hi]
      · by_cases hc : info.conquer
        · by_cases hcol : item.teamId = "COLONIALS"
          · simp [hi, hc, hcol, Prod.ext_iff]
            omega
          · by_cases hwar : item.teamId = "WARDENS"
            · simp [hi, hc, hcol, hwar, Prod.ext_iff]
              omega
            · simp [hi, hc, hcol, hwar, Prod.ext_iff]
              omega
        · simp [hi, hc, Prod.ext_iff]

/-- The counters of the region-control loop as `countP` counts. -/
theorem conquerCounts_eq (items : List MapItem) :
    conquerCounts items =
      (items.countP (fun i => isConquerItem i && i.teamId == "COLONIALS"),
       items.countP (fun i => isConquerItem i && i.teamId == "WARDENS"),
       items.countP isConquerItem) := by
  simpa using foldl_conquerStep items (0, 0, 0)

/-! ## Claim theorems: region control (C1) -/

/-- C1 counterexample: in a region with two Colonial, one Warden and two
unowned conquer settlements the source classifier reports contested, while
the claim formula (denominator a + b, neutral settlements excluded) gives
a = 2, b = 1, a / total = 2/3 ≥ 0.6 and reports the Colonial label. -/
theorem C1_counterexample :
    getRegionControl
        (some ⟨some [colonialTown, colonialTown, wardenTown,
          neutralTown, neutralTown]⟩) = "contested" ∧
    claimRegionLabel 2 1 = "colonial" ∧
    ("contested" : String) ≠ "colonial" := by
  refine ⟨?_, ?_, by decide⟩
  · simp +decide [getRegionControl, conquerCounts, conquerStep, iconTypes,
      colonialTown, wardenTown, neutralTown]
    norm_num
  · simp +decide [claimRegionLabel]
    norm_num

/-- C1 amended: the region label is computed exactly as the claim states
except that the denominator `total` counts every conquer-eligible
settlement of the region, including those held by neither faction; the
three concrete examples of the claim (4 vs 1, 3 vs 3, 0 vs 0, with no
unowned settlements present) hold as stated. -/
theorem C1_amended_region_control :
    (∀ items : List MapItem,
        getRegionControl (some ⟨some items⟩) =
          regionLabelOfCounts
            (items.countP (fun i => isConquerItem i && i.teamId == "COLONIALS"))
            (items.countP (fun i => isConquerItem i && i.teamId == "WARDENS"))
            (items.countP isConquerItem)) ∧
    getRegionControl
        (some ⟨some [colonialTown, colonialTown, colonialTown, colonialTown,
          wardenTown]⟩) = "colonial" ∧
    getRegionControl
        (some ⟨some [colonialTown, colonialTown, colonialTown, wardenTown,
          wardenTown, wardenTown]⟩) = "contested" ∧
    getRegionControl (some ⟨some []⟩) = "neutral" := by
  refine ⟨?_, ?_, ?_, by decide⟩
  case refine_2 =>
    simp +decide [getRegionControl, conquerCounts, conquerStep, iconTypes,
      colonialTown, wardenTown]
    norm_num
  case refine_3 =>
    simp +decide [getRegionControl, conquerCounts, conquerStep, iconTypes,
      colonialTown, wardenTown]
    norm_num
  intro items
  show (let colonialTowns := (conquerCounts items).1
        let wardenTowns := (conquerCounts items).2.1
        let totalTowns := (conquerCounts items).2.2
        if totalTowns = 0 then "neutral"
        else
          let colonialPercent : ℚ := (colonialTowns : ℚ) / (totalTowns : ℚ)
          let wardenPercent : ℚ := (wardenTowns : ℚ) / (totalTowns : ℚ)
          if colonialPercent ≥ 6/10 then "colonial"
          else if wardenPercent ≥ 6/10 then "warden"
          else if 0 < colonialTowns ∧ 0 < wardenTowns then "contested"
          else if colonialTowns > wardenTowns then "colonial"
          else if wardenTowns > colonialTowns then "warden"
          else "neutral") = _
  rw [conquerCounts_eq items]
  rfl

/-! ## Claim theorems: required victory towns (C2) -/

/-- C2 counterexample: during an active resistance phase with a base
requirement of 40 the source returns the literal 32, not the base
requirement; and in the normal phase with base requirement 1 and 2 scorched
victory towns it returns -1, below zero. -/
theorem C2_counterexample :
    (getRequiredVictoryTowns ⟨some 40, some 1000⟩ [] = 32 ∧ (32 : ℤ) ≠ 40) ∧
    (getRequiredVictoryTowns ⟨some 1, none⟩ [some 2] = -1 ∧ (-1 : ℤ) < 0) := by
  refine ⟨⟨by decide, by decide⟩, ⟨by decide, by decide⟩⟩

/-- C2 amended: during an active resistance phase (positive
`resistanceStartTime`) the function returns the constant default 32
regardless of the base requirement; during the normal phase it returns the
base requirement (with the `|| 32` falsy default) minus the scorched count,
with no lower bound at zero. -/
theorem C2_amended_required_victory :
    ∀ (base t : ℤ) (sc : List (Option ℤ)),
      (0 < t → getRequiredVictoryTowns ⟨some base, some t⟩ sc = 32) ∧
      (¬ 0 < t → getRequiredVictoryTowns ⟨some base, some t⟩ sc =
          (if base ≠ 0 then base else 32) - getScorchedVictoryTowns sc) ∧
      (getRequiredVictoryTowns ⟨some base, none⟩ sc =
          (if base ≠ 0 then base else 32) - getScorchedVictoryTowns sc) := by
  intro base t sc
  refine ⟨fun ht => ?_, fun ht => ?_, ?_⟩
  · have ht0 : t ≠ 0 := by omega
    simp [getRequiredVictoryTowns, ht, ht0]
  · simp [getRequiredVictoryTowns, ht]
  · simp [getRequiredVictoryTowns]

/-- Witness for the amended C2 theorem at concrete inputs. -/
theorem C2_amended_witness :
    getRequiredVictoryTowns ⟨some 40, some 1000⟩ [] = 32 ∧
    getRequiredVictoryTowns ⟨some 40, some (-5)⟩ [some 2] = 38 := by
  have h := C2_amended_required_victory 40 1000 []
  have h2 := C2_amended_required_victory 40 (-5) [some 2]
  refine ⟨h.1 (by norm_num), ?_⟩
  rw [h2.2.1 (by norm_num)]
  decide

/-! ## Claim theorems: victory eligibility (C8) -/

/-- C8: `isVictoryTown` holds exactly for the icon codes 45, 56, 57, 58
with the flag bit of value 32 set, and fails for every other icon code and
for every whitelisted code with that bit clear. -/
theorem C8_isVictoryTown :
    ∀ iconType flags : ℕ,
      isVictoryTown iconType flags = true ↔
        ((iconType = 45 ∨ iconType = 56 ∨ iconType = 57 ∨ iconType = 58) ∧
          flags &&& 32 ≠ 0) := by
  intro ic f
  simp [isVictoryTown]

/-! ## Claim theorems: recency alpha (C5, C10) -/

/-- The linear-decay value is antitone in the elapsed time. -/
theorem alphaValueOf_antitone {t₁ t₂ : ℤ} (h : t₁ ≤ t₂) :
    alphaValueOf t₂ ≤ alphaValueOf t₁ := by
  apply Int.floor_le_floor
  have hc : (t₁ : ℚ) ≤ (t₂ : ℚ) := Int.cast_le.mpr h
  have hd : (t₁ : ℚ) / 86400000 ≤ (t₂ : ℚ) / 86400000 :=
    div_le_div_of_nonneg_right hc (by norm_num)
  nlinarith

/-- The linear-decay value stays at or above the baseline 187 up to the
24-hour mark. -/
theorem alphaValueOf_ge_187 {t : ℤ} (h : t ≤ 86400000) :
    187 ≤ alphaValueOf t := by
  apply Int.le_floor.mpr
  have hc : (t : ℚ) ≤ 86400000 := by exact_mod_cast h
  have hd : (t : ℚ) / 86400000 ≤ 1 := by
    rw [div_le_one (by norm_num)]
    exact hc
  push_cast
  nlinarith

/-- C5: the alpha byte of the recency encoder is 255 at elapsed time 0,
follows the floor of the linear decay 255 - (elapsed / 24h) * 68 below 24
hours, is the fixed baseline 187 (hex BB) at and beyond 24 hours (also at
48 hours), and is monotonically non-increasing in the elapsed time. -/
theorem C5_encodeAlpha :
    encodeAlpha 0 = 255 ∧
    encodeAlpha 86400000 = 187 ∧
    encodeAlpha 172800000 = 187 ∧
    (∀ t : ℤ, t < 86400000 →
        encodeAlpha t = Int.floor ((255 : ℚ) - ((t : ℚ) / 86400000) * 68)) ∧
    (∀ t : ℤ, 86400000 ≤ t → encodeAlpha t = 187) ∧
    (∀ t₁ t₂ : ℤ, 0 ≤ t₁ → t₁ ≤ t₂ → encodeAlpha t₂ ≤ encodeAlpha t₁) := by
  have hbranch : ∀ t : ℤ, t < 86400000 → encodeAlpha t = alphaValueOf t := by
    intro t ht
    unfold encodeAlpha
    rw [if_neg (by omega)]
  have hflat : ∀ t : ℤ, 86400000 ≤ t → encodeAlpha t = 187 := by
    intro t ht
    unfold encodeAlpha
    rw [if_pos ht]
  refine ⟨?_, hflat 86400000 le_rfl, hflat 172800000 (by norm_num),
    fun t ht => hbranch t ht, hflat, ?_⟩
  · rw [hbranch 0 (by norm_num)]
    unfold alphaValueOf
    norm_num
  · intro t₁ t₂ _ h12
    by_cases h2 : 86400000 ≤ t₂
    · by_cases h1 : 86400000 ≤ t₁
      · rw [hflat t₁ h1, hflat t₂ h2]
      · rw [hflat t₂ h2, hbranch t₁ (by omega)]
        exact alphaValueOf_ge_187 (by omega)
    · rw [hbranch t₂ (by omega), hbranch t₁ (by omega)]
      exact alphaValueOf_antitone h12

/-- Witness for C5 at concrete elapsed times. -/
theorem C5_witness :
    encodeAlpha 0 = 255 ∧ encodeAlpha 172800000 ≤ encodeAlpha 43200000 :=
  ⟨C5_encodeAlpha.1,
    C5_encodeAlpha.2.2.2.2.2 43200000 172800000 (by norm_num) (by norm_num)⟩

/-- C10: the color function appends the alpha pair computed from the
tracked feature; when no feature is tracked, the feature has no
`lastChange`, or the stored `lastChange` is the falsy 0, the alpha pair is
the fixed baseline BB (the byte 0xBB = 187, the same opacity as a capture
24 or more hours old); and the full-opacity pair ff can only be produced
for a tracked feature with a truthy `lastChange` less than 24 hours before
now (never more than 24 hours in the past). -/
theorem C10_baseline_alpha :
    ∀ (teamId : String) (cf : Option ConquerFeature) (now : ℤ),
      getColorWithAlpha teamId cf now =
        (if teamId = "WARDENS" then "#404040"
         else if teamId = "COLONIALS" then "#A0A0A0"
         else "#F0F0F0") ++ alphaHexOf cf now ∧
      alphaHexOf none now = "BB" ∧
      (∀ team : String, alphaHexOf (some ⟨team, none⟩) now = "BB") ∧
      (∀ team : String, alphaHexOf (some ⟨team, some 0⟩) now = "BB") ∧
      (alphaHexOf cf now = "ff" →
        ∃ f lc, cf = some f ∧ f.lastChange = some lc ∧ lc ≠ 0 ∧
          now - lc < 86400000) := by
  intro teamId cf now
  refine ⟨?_, rfl, fun team => rfl, fun team => by simp [alphaHexOf], ?_⟩
  · simp only [getColorWithAlpha]
    split_ifs <;> rfl
  · intro hff
    rcases cf with _ | ⟨team, lc?⟩
    · have hbb : ("BB" : String) = "ff" := hff
      exact absurd hbb (by decide)
    · rcases lc? with _ | lc
      · have hbb : ("BB" : String) = "ff" := hff
        exact absurd hbb (by decide)
      · by_cases h0 : lc = 0
        · subst h0
          simp only [alphaHexOf, ne_eq, not_true_eq_false, if_false] at hff
          exact absurd hff (by decide)
        · by_cases h24 : now - lc ≥ 86400000
          · simp only [alphaHexOf, ne_eq, h0, not_false_eq_true, if_true,
              if_pos h24] at hff
            exact absurd hff (by decide)
          · exact ⟨⟨team, some lc⟩, lc, rfl, rfl, h0, by omega⟩

/-- Witness for C10 at concrete inputs. -/
theorem C10_witness :
    getColorWithAlpha "WARDENS" none 0 = "#404040BB" ∧
    alphaHexOf (some ⟨"WARDENS", none⟩) 5 = "BB" := by
  have h := C10_baseline_alpha "WARDENS" none 0
  have h2 := (C10_baseline_alpha "X" (some ⟨"WARDENS", none⟩) 5).2.2.1 "WARDENS"
  exact ⟨by rw [h.1, h.2.1]; decide, h2⟩

/-! ## Claim theorems: town control ledger (C3, C4) -/

/-- A REPLACE into the ledger makes the lookup of the same key return the
fresh row. -/
theorem find?_filter_ne_append (db : List TownRow) (townId : String)
    (newRow : TownRow) (h : newRow.id = townId) :
    ((db.filter (fun r => !(r.id == townId))) ++ [newRow]).find?
      (fun r => r.id == townId) = some newRow := by
  induction db with
  | nil => simp [List.find?, h]
  | cons r rs ih =>
      by_cases hr : r.id = townId
      · simpa [List.filter_cons, hr] using ih
      · simp only [List.filter_cons, hr]
        simpa [hr] using ih

/-- The lookup after an update returns exactly the row the update wrote. -/
theorem getTownControl_updateTownControl (db : List TownRow) (ic : ℕ)
    (x y : ℚ) (rg tm : String) (nt : Option String) (now : ℤ) :
    getTownControl (updateTownControl db ic x y rg tm nt now).1 ic x y =
      some ⟨generateTownId ic x y, ic, x, y, rg, tm,
        (transitionFields (getTownControl db ic x y) tm now).1,
        (transitionFields (getTownControl db ic x y) tm now).2.1, nt, now⟩ := by
  unfold updateTownControl
  exact find?_filter_ne_append db (generateTownId ic x y) _ rfl

/-- C3: for a tracked settlement, one write modifies the stored
`lastChange` exactly when the observed team differs from the stored
`currentTeam` (the stored value stays put on a same-team write and becomes
`now` on a team change), and two consecutive writes of the same team never
change `lastChange` on the second write. -/
theorem C3_lastChange_iff :
    (∀ (db : List TownRow) (ic : ℕ) (x y : ℚ) (rg tm : String)
        (nt : Option String) (now : ℤ) (row : TownRow),
        getTownControl db ic x y = some row → row.lastChange < now →
        (((getTownControl (updateTownControl db ic x y rg tm nt now).1
              ic x y).map TownRow.lastChange = some row.lastChange ↔
            tm = row.currentTeam) ∧
          (tm ≠ row.currentTeam →
            (getTownControl (updateTownControl db ic x y rg tm nt now).1
                ic x y).map TownRow.lastChange = some now))) ∧
    (∀ (db : List TownRow) (ic : ℕ) (x y : ℚ) (rg tm : String)
        (nt₁ nt₂ : Option String) (now₁ now₂ : ℤ),
        (getTownControl (updateTownControl
            (updateTownControl db ic x y rg tm nt₁ now₁).1
            ic x y rg tm nt₂ now₂).1 ic x y).map TownRow.lastChange =
          (getTownControl (updateTownControl db ic x y rg tm nt₁ now₁).1
              ic x y).map TownRow.lastChange) := by
  constructor
  · intro db ic x y rg tm nt now row hrow hlt
    by_cases hteam : row.currentTeam = tm
    · rw [getTownControl_updateTownControl, hrow]
      simp [transitionFields, hteam]
    · have hmap : (getTownControl
          (updateTownControl db ic x y rg tm nt now).1 ic x y).map
            TownRow.lastChange = some now := by
        rw [getTownControl_updateTownControl, hrow]
        simp [transitionFields, hteam]
      refine ⟨?_, fun _ => hmap⟩
      rw [hmap]
      simp only [Option.some.injEq]
      constructor
      · intro h
        omega
      · intro htm
        exact absurd htm.symm hteam
  · intro db ic x y rg tm nt₁ nt₂ now₁ now₂
    rw [getTownControl_updateTownControl,
      getTownControl_updateTownControl db ic x y rg tm nt₁ now₁]
    simp [transitionFields]

/-- Witness for C3: a same-team write keeps the stored timestamp 5. -/
theorem C3_witness :
    (getTownControl (updateTownControl
        [⟨generateTownId 56 1 2, 56, 1, 2, "DeadLandsHex", "WARDENS", none, 5,
          none, 5⟩] 56 1 2 "DeadLandsHex" "WARDENS" none 10).1 56 1 2).map
      TownRow.lastChange = some 5 := by
  have h := (C3_lastChange_iff.1
    [⟨generateTownId 56 1 2, 56, 1, 2, "DeadLandsHex", "WARDENS", none, 5,
      none, 5⟩] 56 1 2 "DeadLandsHex" "WARDENS" none 10
    ⟨generateTownId 56 1 2, 56, 1, 2, "DeadLandsHex", "WARDENS", none, 5,
      none, 5⟩ (by simp [getTownControl]) (by norm_num)).1
  exact h.mpr rfl

/-- C4: a settlement first observed for team A and then for a different
team B ends with `lastTeam = A`, `currentTeam = B`, `lastChange` equal to
the time of the second write, and the second write reports the
transition. -/
theorem C4_transition :
    ∀ (db : List TownRow) (ic : ℕ) (x y : ℚ) (rg A B : String)
      (nt₁ nt₂ : Option String) (now₁ now₂ : ℤ),
      getTownControl db ic x y = none → A ≠ B →
      ((getTownControl (updateTownControl
          (updateTownControl db ic x y rg A nt₁ now₁).1
          ic x y rg B nt₂ now₂).1 ic x y).map TownRow.lastTeam =
            some (some A)) ∧
      ((getTownControl (updateTownControl
          (updateTownControl db ic x y rg A nt₁ now₁).1
          ic x y rg B nt₂ now₂).1 ic x y).map TownRow.currentTeam = some B) ∧
      ((getTownControl (updateTownControl
          (updateTownControl db ic x y rg A nt₁ now₁).1
          ic x y rg B nt₂ now₂).1 ic x y).map TownRow.lastChange =
            some now₂) ∧
      (updateTownControl (updateTownControl db ic x y rg A nt₁ now₁).1
          ic x y rg B nt₂ now₂).2 = true := by
  intro db ic x y rg A B nt₁ nt₂ now₁ now₂ hnone hAB
  have h₁ := getTownControl_updateTownControl db ic x y rg A nt₁ now₁
  rw [hnone] at h₁
  have h₂ := getTownControl_updateTownControl
    (updateTownControl db ic x y rg A nt₁ now₁).1 ic x y rg B nt₂ now₂
  rw [h₁] at h₂
  refine ⟨?_, ?_, ?_, ?_⟩
  · rw [h₂]
    simp [transitionFields, hAB]
  · rw [h₂]
    simp [transitionFields]
  · rw [h₂]
    simp [transitionFields, hAB]
  · show (transitionFields (getTownControl
        (updateTownControl db ic x y rg A nt₁ now₁).1 ic x y) B now₂).2.2 =
      true
    rw [h₁]
    simp [transitionFields, hAB]

/-- Witness for C4: a fresh settlement flipping from Colonial to Warden. -/
theorem C4_witness :
    (updateTownControl (updateTownControl [] 56 1 2 "DeadLandsHex"
        "COLONIALS" none 5).1 56 1 2 "DeadLandsHex" "WARDENS" none 9).2 =
      true := by
  exact (C4_transition [] 56 1 2 "DeadLandsHex" "COLONIALS" "WARDENS"
    none none 5 9 rfl (by decide)).2.2.2

/-! ## Claim theorems: point in polygon (C9) -/

set_option maxHeartbeats 2000000 in
/-- C9: on the unit-square ring the ray-casting test returns true exactly
on the half-open square (0 ≤ x < 1, 0 ≤ y < 1), and on a simple concave
L-shaped ring it returns true exactly on the corresponding half-open L
region.  In particular every point strictly inside is classified inside,
every point strictly outside is classified outside, and boundary points
get the deterministic half-open classification (bottom and left edges
inside, top and right edges outside). -/
theorem C9_pointInPolygon :
    ∀ x y : ℚ,
      (inside (x, y) [(0, 0), (1, 0), (1, 1), (0, 1)] = true ↔
        (0 ≤ x ∧ x < 1 ∧ 0 ≤ y ∧ y < 1)) ∧
      (inside (x, y) [(0, 0), (2, 0), (2, 1), (1, 1), (1, 2), (0, 2)] = true ↔
        ((0 ≤ y ∧ y < 1 ∧ 0 ≤ x ∧ x < 2) ∨
          (1 ≤ y ∧ y < 2 ∧ 0 ≤ x ∧ x < 1))) := by
  intro x y
  constructor
  · simp only [inside, List.getLastD, List.zip, List.zipWith, List.foldl]
    norm_num
    simp only [← not_lt]
    by_cases h1 : y < 0 <;> by_cases h2 : y < 1 <;> by_cases h3 : x < 0 <;>
      by_cases h4 : x < 1 <;>
      simp [h1, h2, h3, h4] <;>
      linarith
  · simp only [inside, List.getLastD, List.zip, List.zipWith, List.foldl]
    norm_num
    simp only [← not_lt]
    by_cases h1 : y < 0 <;> by_cases h2 : y < 1 <;> by_cases h3 : y < 2 <;>
      by_cases h4 : x < 0 <;> by_cases h5 : x < 1 <;> by_cases h6 : x < 2 <;>
      simp [h1, h2, h3, h4, h5, h6] <;>
      linarith

/-! ## Claim theorems: town id derivation (C7) -/

/-- Every character of the decimal rendering is an ASCII digit. -/
theorem natDecChars_isDigit :
    ∀ (n : ℕ), ∀ c ∈ natDecChars n, c.isDigit = true := by
  intro n
  induction n using Nat.strong_induction_on with
  | _ n ih =>
    rw [natDecChars]
    split
    · next h =>
      intro c hc
      rw [List.mem_singleton] at hc
      subst hc
      interval_cases n <;> decide
    · next h =>
      intro c hc
      rw [List.mem_append] at hc
      rcases hc with hc | hc
      · exact ih (n / 10) (Nat.div_lt_self (by omega) (by omega)) c hc
      · rw [List.mem_singleton] at hc
        subst hc
        have h10 : n % 10 < 10 := Nat.mod_lt _ (by omega)
        revert h10
        generalize n % 10 = k
        intro h10
        interval_cases k <;> decide

/-- Parsing after appending one digit. -/
theorem charsToNat_append (l : List Char) (c : Char) :
    charsToNat (l ++ [c]) = charsToNat l * 10 + (c.toNat - 48) := by
  simp [charsToNat, List.foldl_append]

/-- The decimal rendering parses back to the number. -/
theorem charsToNat_natDecChars : ∀ n : ℕ, charsToNat (natDecChars n) = n := by
  intro n
  induction n using Nat.strong_induction_on with
  | _ n ih =>
    rw [natDecChars]
    split
    · next h =>
      interval_cases n <;> decide
    · next h =>
      rw [charsToNat_append,
        ih (n / 10) (Nat.div_lt_self (by omega) (by omega))]
      have h10 : n % 10 < 10 := Nat.mod_lt _ (by omega)
      have hd : (Nat.digitChar (n % 10)).toNat - 48 = n % 10 := by
        revert h10
        generalize n % 10 = k
        intro h10
        interval_cases k <;> decide
      rw [hd]
      omega

/-- The decimal rendering of naturals is injective. -/
theorem natDecChars_inj {m n : ℕ} (h : natDecChars m = natDecChars n) :
    m = n := by
  have := congrArg charsToNat h
  rwa [charsToNat_natDecChars, charsToNat_natDecChars] at this

/-- The character-list view of the integer rendering. -/
theorem intDecRepr_data (i : ℤ) :
    (intDecRepr i).data =
      if i < 0 then '-' :: natDecChars i.natAbs else natDecChars i.natAbs := by
  unfold intDecRepr
  split
  · rfl
  · rfl

/-- No character of the integer rendering is an underscore. -/
theorem intDecRepr_ne_underscore (i : ℤ) :
    ∀ c ∈ (intDecRepr i).data, c ≠ '_' := by
  rw [intDecRepr_data]
  split
  · intro c hc
    rw [List.mem_cons] at hc
    rcases hc with hc | hc
    · subst hc
      decide
    · have := natDecChars_isDigit i.natAbs c hc
      intro he
      subst he
      simp at this
  · intro c hc
    have := natDecChars_isDigit i.natAbs c hc
    intro he
    subst he
    simp at this

/-- The integer rendering is injective. -/
theorem intDecRepr_inj {i j : ℤ} (h : intDecRepr i = intDecRepr j) :
    i = j := by
  have hd := congrArg String.data h
  rw [intDecRepr_data, intDecRepr_data] at hd
  by_cases hi : i < 0 <;> by_cases hj : j < 0
  · rw [if_pos hi, if_pos hj] at hd
    have := natDecChars_inj (List.cons.inj hd).2
    omega
  · rw [if_pos hi, if_neg hj] at hd
    have hm : '-' ∈ natDecChars j.natAbs := hd ▸ List.mem_cons_self _ _
    have := natDecChars_isDigit j.natAbs '-' hm
    simp at this
  · rw [if_neg hi, if_pos hj] at hd
    have hm : '-' ∈ natDecChars i.natAbs := hd.symm ▸ List.mem_cons_self _ _
    have := natDecChars_isDigit i.natAbs '-' hm
    simp at this
  · rw [if_neg hi, if_neg hj] at hd
    have := natDecChars_inj hd
    omega

/-- Splitting at an underscore separator is unambiguous when neither prefix
part contains an underscore. -/
theorem underscore_split :
    ∀ (a₁ a₂ b₁ b₂ : List Char),
      (∀ c ∈ a₁, c ≠ '_') → (∀ c ∈ a₂, c ≠ '_') →
      a₁ ++ '_' :: b₁ = a₂ ++ '_' :: b₂ → a₁ = a₂ ∧ b₁ = b₂
  | [], [], b₁, b₂, _, _, h => ⟨rfl, (List.cons.inj h).2⟩
  | [], c :: cs, b₁, b₂, _, h₂, h => by
      exfalso
      exact h₂ c (List.mem_cons_self _ _) (List.cons.inj h).1.symm
  | c :: cs, [], b₁, b₂, h₁, _, h => by
      exfalso
      exact h₁ c (List.mem_cons_self _ _) (List.cons.inj h).1
  | c :: cs, d :: ds, b₁, b₂, h₁, h₂, h => by
      obtain ⟨hcd, htail⟩ := List.cons.inj h
      obtain ⟨hcs, hb⟩ := underscore_split cs ds b₁ b₂
        (fun e he => h₁ e (List.mem_cons_of_mem _ he))
        (fun e he => h₂ e (List.mem_cons_of_mem _ he)) htail
      exact ⟨by rw [hcd, hcs], hb⟩

/-- The character-list view of the derived town id. -/
theorem generateTownId_data (iconType : ℕ) (x y : ℚ) :
    (generateTownId iconType x y).data =
      natDecChars iconType ++
        '_' :: ((intDecRepr (jsRound (x * 1000))).data ++
          '_' :: (intDecRepr (jsRound (y * 1000))).data) := by
  simp [generateTownId, natDecRepr, String.data_append, List.append_assoc]
  rfl

/-- The derived town id determines the icon code and both rounded scaled
coordinates. -/
theorem generateTownId_eq_iff (ic₁ ic₂ : ℕ) (x₁ y₁ x₂ y₂ : ℚ) :
    generateTownId ic₁ x₁ y₁ = generateTownId ic₂ x₂ y₂ ↔
      (ic₁ = ic₂ ∧ jsRound (x₁ * 1000) = jsRound (x₂ * 1000) ∧
        jsRound (y₁ * 1000) = jsRound (y₂ * 1000)) := by
  constructor
  · intro h
    have hd := congrArg String.data h
    rw [generateTownId_data, generateTownId_data] at hd
    have hdigits₁ : ∀ c ∈ natDecChars ic₁, c ≠ '_' := by
      intro c hc he
      have := natDecChars_isDigit ic₁ c hc
      subst he
      simp at this
    have hdigits₂ : ∀ c ∈ natDecChars ic₂, c ≠ '_' := by
      intro c hc he
      have := natDecChars_isDigit ic₂ c hc
      subst he
      simp at this
    obtain ⟨hic, hrest⟩ := underscore_split _ _ _ _ hdigits₁ hdigits₂ hd
    obtain ⟨hx, hy⟩ := underscore_split _ _ _ _
      (intDecRepr_ne_underscore _) (intDecRepr_ne_underscore _) hrest
    refine ⟨natDecChars_inj hic, ?_, ?_⟩
    · exact intDecRepr_inj (String.ext hx)
    · exact intDecRepr_inj (String.ext hy)
  · rintro ⟨h1, h2, h3⟩
    unfold generateTownId
    rw [h1, h2, h3]

/-- Rounds of rationals more than one apart differ. -/
theorem jsRound_ne_of_far {u v : ℚ} (h : 1 < |u - v|) :
    jsRound u ≠ jsRound v := by
  unfold jsRound
  rcases lt_or_gt_of_ne (fun he : u = v => by norm_num [he] at h) with hlt | hgt
  · have hle : u + 1 ≤ v := by
      rcases abs_cases (u - v) with ⟨ha, _⟩ | ⟨ha, _⟩
      · linarith
      · linarith
    have : Int.floor (u + 1/2) + 1 ≤ Int.floor (v + 1/2) := by
      rw [show Int.floor (u + 1/2) + 1 = Int.floor (u + 1/2 + 1) from
        (Int.floor_add_one _).symm]
      exact Int.floor_le_floor (by linarith)
    omega
  · have hle : v + 1 ≤ u := by
      rcases abs_cases (u - v) with ⟨ha, _⟩ | ⟨ha, _⟩
      · linarith
      · linarith
    have : Int.floor (v + 1/2) + 1 ≤ Int.floor (u + 1/2) := by
      rw [show Int.floor (v + 1/2) + 1 = Int.floor (v + 1/2 + 1) from
        (Int.floor_add_one _).symm]
      exact Int.floor_le_floor (by linarith)
    omega

/-- C7 counterexample: the two x coordinates 0.0004995 and 0.0005 differ by
less than 0.001 both in world units and on the scaled (times 1000)
coordinate, yet their rounded scaled values are 0 and 1 and the derived ids
differ, refuting stability under sub-epsilon jitter. -/
theorem C7_counterexample :
    |(4995 : ℚ)/10000000 - 5/10000| < 1/1000 ∧
    |(4995 : ℚ)/10000000 * 1000 - 5/10000 * 1000| < 1/1000 ∧
    generateTownId 56 (4995/10000000) 0 ≠ generateTownId 56 (5/10000) 0 := by
  refine ⟨by rw [abs_sub_comm]; rw [abs_of_nonneg (by norm_num)]; norm_num,
    by rw [abs_sub_comm]; rw [abs_of_nonneg (by norm_num)]; norm_num, ?_⟩
  intro h
  have := ((generateTownId_eq_iff 56 56 (4995/10000000) 0
    (5/10000) 0).mp h).2.1
  have h1 : jsRound ((4995 : ℚ)/10000000 * 1000) = 0 := by
    unfold jsRound
    norm_num
  have h2 : jsRound ((5 : ℚ)/10000 * 1000) = 1 := by
    unfold jsRound
    norm_num
  rw [h1, h2] at this
  exact absurd this (by norm_num)

/-- C7 amended: the id derivation is a deterministic pure function whose
value determines, and is determined by, the icon code and the two rounded
scaled coordinates round(1000 x), round(1000 y); it is stable under jitter
exactly when the jitter does not move the scaled coordinate across a
rounding boundary (not under every sub-epsilon jitter), and two settlements
whose scaled coordinates differ by more than 1 (more than 0.001 in world
units) always receive distinct ids. -/
theorem C7_amended_town_id :
    ∀ (ic₁ ic₂ : ℕ) (x₁ y₁ x₂ y₂ : ℚ),
      (generateTownId ic₁ x₁ y₁ = generateTownId ic₂ x₂ y₂ ↔
        (ic₁ = ic₂ ∧ jsRound (x₁ * 1000) = jsRound (x₂ * 1000) ∧
          jsRound (y₁ * 1000) = jsRound (y₂ * 1000))) ∧
      (1 < |x₁ * 1000 - x₂ * 1000| →
        generateTownId ic₁ x₁ y₁ ≠ generateTownId ic₂ x₂ y₂) := by
  intro ic₁ ic₂ x₁ y₁ x₂ y₂
  refine ⟨generateTownId_eq_iff ic₁ ic₂ x₁ y₁ x₂ y₂, fun hfar he => ?_⟩
  exact jsRound_ne_of_far hfar
    (((generateTownId_eq_iff ic₁ ic₂ x₁ y₁ x₂ y₂).mp he).2.1)

/-- Witness for the amended C7 theorem: scaled coordinates 0 and 2000 are
more than 1 apart, so the ids differ. -/
theorem C7_amended_witness : generateTownId 56 0 0 ≠ generateTownId 56 2 0 :=
  (C7_amended_town_id 56 56 0 0 2 0).2 (by norm_num)

/-! ## Claim theorems: recent captures view (C6) -/

/-- Specification of one per-team list of the recent-captures pipeline:
filter to the window, build entries, sort ascending by elapsed time, filter
by team, take 6.  The result is sound (every entry comes from a tracked
in-window feature and satisfies the team test), sorted, capped at 6, and
complete whenever at most 6 features qualify for the team. -/
theorem recentCaptures_pipeline_spec
    (features : List (String × ConquerFeature))
    (mapData : List (String × RegionData)) (now : ℤ)
    (teamPred : Capture → Bool) :
    (∀ e ∈ ((((features.filter (isRecentEntry now)).map
          (mkCapture now mapData)).insertionSort captureLE).filter
            teamPred).take 6,
        teamPred e = true ∧
          ∃ p ∈ features, isRecentEntry now p = true ∧
            e = mkCapture now mapData p) ∧
    (((((features.filter (isRecentEntry now)).map
          (mkCapture now mapData)).insertionSort captureLE).filter
            teamPred).take 6).Sorted captureLE ∧
    (((((features.filter (isRecentEntry now)).map
          (mkCapture now mapData)).insertionSort captureLE).filter
            teamPred).take 6).length ≤ 6 ∧
    (features.countP
        (fun p => teamPred (mkCapture now mapData p) && isRecentEntry now p)
          ≤ 6 →
      ∀ p ∈ features, isRecentEntry now p = true →
        teamPred (mkCapture now mapData p) = true →
        mkCapture now mapData p ∈
          ((((features.filter (isRecentEntry now)).map
            (mkCapture now mapData)).insertionSort captureLE).filter
              teamPred).take 6) := by
  have hperm : List.Perm
      (((features.filter (isRecentEntry now)).map
        (mkCapture now mapData)).insertionSort captureLE)
      ((features.filter (isRecentEntry now)).map (mkCapture now mapData)) :=
    List.perm_insertionSort captureLE _
  have hsorted : (((features.filter (isRecentEntry now)).map
      (mkCapture now mapData)).insertionSort captureLE).Sorted captureLE :=
    List.sorted_insertionSort captureLE _
  refine ⟨?_, ?_, List.length_take_le 6 _, ?_⟩
  · intro e he
    have hef := List.mem_of_mem_take he
    rw [List.mem_filter] at hef
    obtain ⟨hes, het⟩ := hef
    have hem := hperm.mem_iff.mp hes
    rw [List.mem_map] at hem
    obtain ⟨p, hp, hpe⟩ := hem
    rw [List.mem_filter] at hp
    exact ⟨het, p, hp.1, hp.2, hpe.symm⟩
  · exact ((hsorted.filter teamPred).sublist (List.take_sublist 6 _))
  · intro hcount p hp hrec hteam
    have hlen : ((((features.filter (isRecentEntry now)).map
        (mkCapture now mapData)).insertionSort captureLE).filter
          teamPred).length ≤ 6 := by
      rw [(hperm.filter teamPred).length_eq,
        ← List.countP_eq_length_filter, List.countP_map, List.countP_filter]
      exact hcount
    rw [List.take_of_length_le hlen, List.mem_filter, hperm.mem_iff,
      List.mem_map]
    exact ⟨⟨p, List.mem_filter.mpr ⟨hp, hrec⟩, rfl⟩, hteam⟩

/-- C6 counterexample: with seven tracked Warden settlements all inside the
48-hour window, the view returned by the source keeps only the six most
recent; the settlement t1 (the oldest) is inside the window but appears in
neither faction list, so the view does not contain every tracked settlement
of the window. -/
theorem C6_counterexample :
    (getRecentCapturesData (some sevenWardenStatus) [] 100).1.length = 6 ∧
    (getRecentCapturesData (some sevenWardenStatus) [] 100).2.length = 0 ∧
    (sevenWardenStatus.features.getD []).countP (isRecentEntry 100) = 7 ∧
    ((getRecentCapturesData (some sevenWardenStatus) [] 100).1.all
        (fun c => !(c.id == "t1"))) = true ∧
    isRecentEntry 100 ("t1", ⟨"WARDENS", some 1⟩) = true := by
  refine ⟨by decide, by decide, by decide, by decide, by decide⟩

/-- C6 amended: the view contains, per faction, at most the six most recent
tracked settlements whose `lastChange` is truthy and within the 48-hour
window before now, sorted most-recent-first (ascending elapsed time); every
entry arises from a tracked in-window feature via the entry builder
`mkCapture` (which tags it with the hex name and the Voronoi-containment
town name); and whenever at most six features of a faction qualify, every
qualifying feature of that faction appears.  Settlements beyond the
six-per-faction cap, and features held by neither faction, are omitted. -/
theorem C6_amended_recent_captures :
    ∀ (features : List (String × ConquerFeature))
      (mapData : List (String × RegionData)) (now : ℤ),
      (∀ e ∈ (getRecentCapturesData (some ⟨some features⟩) mapData now).1,
          (e.team == "WARDENS" || e.team == "Warden") = true ∧
            ∃ p ∈ features, isRecentEntry now p = true ∧
              e = mkCapture now mapData p) ∧
      ((getRecentCapturesData (some ⟨some features⟩) mapData now).1.Sorted
          captureLE) ∧
      ((getRecentCapturesData (some ⟨some features⟩) mapData now).1.length
          ≤ 6) ∧
      (features.countP (fun p =>
            (p.2.team == "WARDENS" || p.2.team == "Warden") &&
              isRecentEntry now p) ≤ 6 →
        ∀ p ∈ features, isRecentEntry now p = true →
          (p.2.team == "WARDENS" || p.2.team == "Warden") = true →
          mkCapture now mapData p ∈
            (getRecentCapturesData (some ⟨some features⟩) mapData now).1) ∧
      (∀ e ∈ (getRecentCapturesData (some ⟨some features⟩) mapData now).2,
          (e.team == "COLONIALS" || e.team == "Colonial") = true ∧
            ∃ p ∈ features, isRecentEntry now p = true ∧
              e = mkCapture now mapData p) ∧
      ((getRecentCapturesData (some ⟨some features⟩) mapData now).2.Sorted
          captureLE) ∧
      ((getRecentCapturesData (some ⟨some features⟩) mapData now).2.length
          ≤ 6) ∧
      (features.countP (fun p =>
            (p.2.team == "COLONIALS" || p.2.team == "Colonial") &&
              isRecentEntry now p) ≤ 6 →
        ∀ p ∈ features, isRecentEntry now p = true →
          (p.2.team == "COLONIALS" || p.2.team == "Colonial") = true →
          mkCapture now mapData p ∈
            (getRecentCapturesData (some ⟨some features⟩) mapData now).2) := by
  intro features mapData now
  have hw := recentCaptures_pipeline_spec features mapData now
    (fun c => c.team == "WARDENS" || c.team == "Warden")
  have hc := recentCaptures_pipeline_spec features mapData now
    (fun c => c.team == "COLONIALS" || c.team == "Colonial")
  exact ⟨hw.1, hw.2.1, hw.2.2.1, hw.2.2.2, hc.1, hc.2.1, hc.2.2.1, hc.2.2.2⟩

/-- Witness for the amended C6 theorem: a single in-window Warden feature
appears in the Warden list of the view. -/
theorem C6_amended_witness :
    mkCapture 100 [] ("t1", ⟨"WARDENS", some 1⟩) ∈
      (getRecentCapturesData
        (some ⟨some [("t1", ⟨"WARDENS", some 1⟩)]⟩) [] 100).1 := by
  exact (C6_amended_recent_captures [("t1", ⟨"WARDENS", some 1⟩)] [] 100).2.2.2.1
    (by decide) ("t1", ⟨"WARDENS", some 1⟩) (List.mem_singleton.mpr rfl)
    (by decide) (by decide)

end Foxhole
